import Mathlib

/-!
Verification of `utility.c`, a single-shot ICMPv4 ping utility: it sends an
ICMP Echo Request and reports the Ethernet source MAC address of the frame
carrying the matching Echo Reply.

Byte buffers are modelled as `List Nat`, each element one byte (0–255).
The target platform is little-endian Linux/x86-64, so a C `uint16_t` read
from two consecutive bytes `lo, hi` has value `lo + 256 * hi`, and
`htons`/`ntohs` swap the two bytes.  Machine arithmetic is modelled on `Nat`
with explicit reductions modulo `2^32` where the C code uses a `uint32_t`
accumulator.
-/

namespace Utility

/-- Fuelled version of the carry-folding loop
`while (sum >> 16) sum = (sum & 0xFFFF) + (sum >> 16);` of `csum16`.
One loop step strictly decreases any `s ≥ 2^16`, so fuel `s` always
suffices; see `foldCarries`. -/
def foldAux : Nat → Nat → Nat
  | 0, s => s
  | fuel + 1, s => if s < 65536 then s else foldAux fuel (s % 65536 + s / 65536)

/-- The carry-folding loop of `csum16`: repeatedly add the high 16 bits of
the 32-bit accumulator into its low 16 bits until no carry remains. -/
def foldCarries (s : Nat) : Nat := foldAux s s

/-- The summation loop of `csum16` (utility.c lines 31–35): add the 16-bit
words of the buffer (read little-endian, two bytes at a time) into a 32-bit
accumulator; an odd trailing byte is added as the low-order byte of one more
word. -/
def csum16_sum : List Nat → Nat → Nat
  | lo :: hi :: rest, acc => csum16_sum rest ((acc + (lo + 256 * hi)) % 4294967296)
  | [b], acc => (acc + b) % 4294967296
  | [], acc => acc

/-- `csum16` from utility.c lines 26–41: RFC 1071 internet checksum of a
byte buffer.  The final `(uint16_t)~sum` is the 16-bit bitwise complement,
i.e. `65535 - s` for the folded accumulator `s < 65536`. -/
def csum16 (data : List Nat) : Nat := 65535 - foldCarries (csum16_sum data 0)

/-- The word decomposition used by the specification's wording of the
checksum: the sequence of complete 16-bit words of the buffer, the final
odd byte (if any) standing as the low-order byte of one more word. -/
def toWords : List Nat → List Nat
  | lo :: hi :: rest => (lo + 256 * hi) :: toWords rest
  | [b] => [b]
  | [] => []

/-- The checksum as the specification words it (spec §4.1): sum all words
into a 32-bit accumulator, fold carries until none remain, and return the
complement of the low 16 bits. -/
def checksum16_spec (data : List Nat) : Nat :=
  65535 - foldCarries ((toWords data).foldl (fun a w => (a + w) % 4294967296) 0)

/-- The plain (unbounded) word sum of a buffer; agrees with `csum16_sum`
whenever no 32-bit overflow occurs. -/
def wsum : List Nat → Nat
  | lo :: hi :: rest => (lo + 256 * hi) + wsum rest
  | [b] => b
  | [] => 0

/-- `build_icmp_echo` from utility.c lines 49–69: a 64-byte ICMP Echo
Request.  Byte 0 is the type (`ICMP_ECHO` = 8), byte 1 the code, bytes 2–3
the checksum (stored little-endian by the `uint16_t` assignment), bytes 4–5
and 6–7 the id and sequence stored via `htons` (network byte order), and the
56-byte payload is the 8-byte `time_t` value `now` followed by zero padding.
The checksum is computed over the whole packet with the field zeroed and
then stored in bytes 2–3. -/
def build_icmp_echo (id seq : Nat) (now : List Nat) : List Nat :=
  8 :: 0 ::
    csum16 (8 :: 0 :: 0 :: 0 :: id / 256 % 256 :: id % 256 :: seq / 256 % 256 :: seq % 256 ::
      (now.take 8 ++ List.replicate (56 - (now.take 8).length) 0)) % 256 ::
    csum16 (8 :: 0 :: 0 :: 0 :: id / 256 % 256 :: id % 256 :: seq / 256 % 256 :: seq % 256 ::
      (now.take 8 ++ List.replicate (56 - (now.take 8).length) 0)) / 256 ::
    id / 256 % 256 :: id % 256 :: seq / 256 % 256 :: seq % 256 ::
    (now.take 8 ++ List.replicate (56 - (now.take 8).length) 0)

/-- Ethernet type field of a captured frame, as read by
`ntohs(eth->ether_type)`: bytes 12–13 interpreted big-endian. -/
def ether_type (buf : List Nat) : Nat := 256 * buf.getD 12 0 + buf.getD 13 0

/-- The `ihl` bitfield of the IPv4 header at offset 14: on a little-endian
host it is the low nibble of the first IPv4 header byte. -/
def ip_ihl (buf : List Nat) : Nat := buf.getD 14 0 % 16

/-- IPv4 header length in bytes, `ip->ihl * 4`. -/
def ip_hl (buf : List Nat) : Nat := ip_ihl buf * 4

/-- IPv4 protocol field, at offset 9 inside the IPv4 header. -/
def ip_proto (buf : List Nat) : Nat := buf.getD 23 0

/-- Offset of the ICMP header: Ethernet header (14 bytes) plus the
variable-length IPv4 header. -/
def icmp_off (buf : List Nat) : Nat := 14 + ip_hl buf

/-- ICMP type byte of a captured frame. -/
def icmp_type (buf : List Nat) : Nat := buf.getD (icmp_off buf) 0

/-- ICMP code byte of a captured frame. -/
def icmp_code (buf : List Nat) : Nat := buf.getD (icmp_off buf + 1) 0

/-- ICMP echo id field as the C code reads it: a `uint16_t` load of two
bytes on a little-endian host. -/
def icmp_id (buf : List Nat) : Nat :=
  buf.getD (icmp_off buf + 4) 0 + 256 * buf.getD (icmp_off buf + 5) 0

/-- ICMP echo sequence field, read like `icmp_id`. -/
def icmp_seq (buf : List Nat) : Nat :=
  buf.getD (icmp_off buf + 6) 0 + 256 * buf.getD (icmp_off buf + 7) 0

/-- `htons` of a 16-bit value on a little-endian host: swap the two bytes
(the argument is truncated to 16 bits as by the C parameter type). -/
def htons16 (x : Nat) : Nat := 256 * (x % 256) + x / 256 % 256

/-- The 6-byte Ethernet source MAC, `eth->ether_shost`, bytes 6–11. -/
def ether_shost (buf : List Nat) : List Nat :=
  [buf.getD 6 0, buf.getD 7 0, buf.getD 8 0, buf.getD 9 0, buf.getD 10 0, buf.getD 11 0]

/-- The per-frame filter of `wait_reply` (utility.c lines 119–142).  `buf`
is the contents of the 2048-byte receive buffer and `n` the length returned
by `recv`; as in the C code, only the initial length test consults `n`, all
field reads go straight to the buffer.  Returns the source MAC on a match
and `none` when any of the seven ordered checks rejects the frame. -/
def frame_match (buf : List Nat) (n : Nat) (id seq : Nat) : Option (List Nat) :=
  if n < 42 then none
  else if ether_type buf ≠ 2048 then none
  else if ip_hl buf < 20 then none
  else if ip_proto buf ≠ 1 then none
  else if icmp_type buf ≠ 0 ∨ icmp_code buf ≠ 0 then none
  else if icmp_id buf ≠ htons16 id then none
  else if icmp_seq buf ≠ htons16 seq then none
  else some (ether_shost buf)

/-- One observed result of the `poll` call heading each loop iteration:
either a readable frame is delivered (`poll` returned a positive count and
`recv` yields `n` bytes in the buffer), or `poll` reported a timeout
(returned 0), or `poll` failed (returned a negative value). -/
inductive PollRes : Type
  | ready (buf : List Nat) (n : Nat)
  | timeout
  | perr

/-- `wait_reply` from utility.c lines 112–145 over a trace of poll results:
the loop body runs while `poll` stays positive; a matching frame returns 0
and stores its source MAC into the caller's buffer (whose prior contents are
`mac0`), and a timeout or poll error leaves the loop, returning −1 with the
caller's buffer untouched. -/
def wait_reply : List PollRes → Nat → Nat → List Nat → Int × List Nat
  | [], _, _, mac0 => (-1, mac0)
  | PollRes.timeout :: _, _, _, mac0 => (-1, mac0)
  | PollRes.perr :: _, _, _, mac0 => (-1, mac0)
  | PollRes.ready buf n :: rest, id, seq, mac0 =>
      match frame_match buf n id seq with
      | some mac => (0, mac)
      | none => wait_reply rest id seq mac0

/-- Lowercase hexadecimal digit, as produced by `printf "%02x"`. -/
def hexDigit (n : Nat) : Char := if n < 10 then Char.ofNat (48 + n) else Char.ofNat (87 + n)

/-- Two-digit lowercase hexadecimal rendering of one byte. -/
def byteHex (b : Nat) : String := String.mk [hexDigit (b / 16 % 16), hexDigit (b % 16)]

/-- `print_mac` from utility.c lines 152–156: the six bytes as two-digit
lowercase hex octets joined by colons. -/
def mac_string (m : List Nat) : String := String.intercalate ":" (m.map byteHex)

/-- A synthetic valid Echo Reply frame, 60 bytes: source MAC
`aa:bb:cc:dd:ee:ff` (bytes 6–11), Ethernet type 0x0800, a 20-byte IPv4
header with protocol ICMP, and an ICMP Echo Reply (type 0, code 0) with
id 1234 and sequence 1 in network byte order (checksum bytes 0xde 0xad). -/
def exFrame : List Nat :=
  [0, 0, 0, 0, 0, 0,
   170, 187, 204, 221, 238, 255,
   8, 0,
   69, 0, 0, 46, 0, 0, 0, 0, 64, 1, 0, 0, 10, 0, 0, 1, 10, 0, 0, 2,
   0, 0, 222, 173, 4, 210, 0, 1,
   0, 0, 0, 0, 0, 0, 0, 0, 0, 0, 0, 0, 0, 0, 0, 0, 0, 0]

/-- Receive-buffer contents exhibiting the missing variable-length bound:
a 42-byte received frame whose IPv4 header claims `ihl = 6` (24 bytes), so
the computed ICMP header site at offset 38 extends past the 42 received
bytes; positions 42–45 hold stale (zero) buffer bytes that the filter reads
as the id and sequence fields. -/
def c1buf : List Nat :=
  [0, 0, 0, 0, 0, 0,
   1, 2, 3, 4, 5, 6,
   8, 0,
   70, 0, 0, 0, 0, 0, 0, 0, 0, 1, 0, 0, 0, 0, 0, 0, 0, 0, 0, 0, 0, 0, 0, 0,
   0, 0, 0, 0, 0, 0, 0, 0]

theorem csum16_sum_eq_foldl : ∀ (data : List Nat) (acc : Nat),
    csum16_sum data acc = (toWords data).foldl (fun a w => (a + w) % 4294967296) acc
  | [], _ => rfl
  | [_], _ => rfl
  | lo :: hi :: rest, acc => by
      simp only [csum16_sum, toWords, List.foldl]
      exact csum16_sum_eq_foldl rest _

theorem foldAux_lt : ∀ (fuel s : Nat), s ≤ fuel → foldAux fuel s < 65536
  | 0, s, h => by simp only [foldAux]; omega
  | fuel + 1, s, h => by
      by_cases hs : s < 65536
      · simp only [foldAux, if_pos hs]; exact hs
      · have := foldAux_lt fuel (s % 65536 + s / 65536) (by omega)
        simp only [foldAux, if_neg hs]; exact this

theorem foldAux_mod : ∀ (fuel s : Nat), foldAux fuel s % 65535 = s % 65535
  | 0, _ => rfl
  | fuel + 1, s => by
      by_cases hs : s < 65536
      · simp [foldAux, hs]
      · have := foldAux_mod fuel (s % 65536 + s / 65536)
        simp only [foldAux, hs, if_false]
        rw [this]
        omega

theorem foldAux_pos : ∀ (fuel s : Nat), 0 < s → 0 < foldAux fuel s
  | 0, _, h => h
  | fuel + 1, s, h => by
      by_cases hs : s < 65536
      · simpa [foldAux, hs] using h
      · have := foldAux_pos fuel (s % 65536 + s / 65536) (by omega)
        simpa [foldAux, hs] using this

theorem foldCarries_lt (s : Nat) : foldCarries s < 65536 :=
  foldAux_lt s s le_rfl

theorem foldCarries_mod (s : Nat) : foldCarries s % 65535 = s % 65535 :=
  foldAux_mod s s

theorem foldCarries_pos (s : Nat) (h : 0 < s) : 0 < foldCarries s :=
  foldAux_pos s s h

theorem foldCarries_eq_ffff (s : Nat) (h0 : 0 < s) (hm : s % 65535 = 0) :
    foldCarries s = 65535 := by
  have h1 := foldCarries_lt s
  have h2 := foldCarries_mod s
  have h3 := foldCarries_pos s h0
  omega

theorem csum16_sum_eq_wsum : ∀ (data : List Nat) (acc : Nat),
    acc + wsum data < 4294967296 → csum16_sum data acc = acc + wsum data
  | [], acc, _ => rfl
  | [b], acc, h => by
      simp only [wsum] at h
      simp only [csum16_sum, wsum]
      omega
  | lo :: hi :: rest, acc, h => by
      simp only [wsum] at h
      simp only [csum16_sum, wsum]
      rw [Nat.mod_eq_of_lt (by omega)]
      rw [csum16_sum_eq_wsum rest _ (by omega)]
      omega

theorem wsum_le : ∀ (data : List Nat), (∀ b ∈ data, b < 256) →
    wsum data ≤ 32768 * data.length
  | [], _ => by simp [wsum]
  | [b], h => by
      have := h b (by simp)
      simp only [wsum, List.length_singleton]
      omega
  | lo :: hi :: rest, h => by
      have h1 := h lo (by simp)
      have h2 := h hi (by simp)
      have h3 := wsum_le rest (fun b hb => h b (by simp [hb]))
      simp only [wsum, List.length_cons] at h3 ⊢
      omega

theorem wsum_append : ∀ (pre : List Nat), pre.length % 2 = 0 →
    ∀ rest, wsum (pre ++ rest) = wsum pre + wsum rest
  | [], _, rest => by simp [wsum]
  | [a], h, rest => by simp at h
  | a :: b :: t, h, rest => by
      simp only [List.cons_append, wsum, List.append_eq]
      rw [wsum_append t (by simp only [List.length_cons] at h; omega) rest]
      omega

/-- The checksum computed by the C loop agrees with the specification's
word-by-word description for every buffer. -/
theorem csum16_eq_spec (data : List Nat) : csum16 data = checksum16_spec data := by
  unfold csum16 checksum16_spec
  rw [csum16_sum_eq_foldl]

/-- General stuffed-checksum identity: computing the checksum of a buffer
with a zeroed, word-aligned checksum field and storing the result there
(little-endian, as the C assignment does) makes the accumulator of a
recomputation fold to `0xFFFF`, so the recomputed checksum value is `0`. -/
theorem csum16_stuffed (pre post : List Nat)
    (heven : pre.length % 2 = 0)
    (hlen : pre.length + 2 + post.length ≤ 2048)
    (hpre : ∀ b ∈ pre, b < 256) (hpost : ∀ b ∈ post, b < 256) :
    foldCarries (csum16_sum (pre ++
        csum16 (pre ++ 0 :: 0 :: post) % 256 ::
        csum16 (pre ++ 0 :: 0 :: post) / 256 :: post) 0) = 65535 ∧
    csum16 (pre ++
        csum16 (pre ++ 0 :: 0 :: post) % 256 ::
        csum16 (pre ++ 0 :: 0 :: post) / 256 :: post) = 0 := by
  set c := csum16 (pre ++ 0 :: 0 :: post) with hc
  have hw0 : wsum (pre ++ 0 :: 0 :: post) = wsum pre + wsum post := by
    rw [wsum_append pre heven]
    simp only [wsum]
    ring
  have hlpre : wsum pre ≤ 32768 * pre.length := wsum_le pre hpre
  have hlpost : wsum post ≤ 32768 * post.length := wsum_le post hpost
  have hb0 : wsum pre + wsum post < 4294967296 := by
    have : pre.length + post.length ≤ 2048 := by omega
    nlinarith
  have hsum0 : csum16_sum (pre ++ 0 :: 0 :: post) 0 = wsum pre + wsum post := by
    rw [csum16_sum_eq_wsum _ 0 (by omega : 0 + wsum (pre ++ 0 :: 0 :: post) < 4294967296)]
    · rw [hw0]; ring
  have hcval : c = 65535 - foldCarries (wsum pre + wsum post) := by
    rw [hc]; unfold csum16; rw [hsum0]
  set S := foldCarries (wsum pre + wsum post) with hS
  have hSlt : S < 65536 := foldCarries_lt _
  have hSmod : S % 65535 = (wsum pre + wsum post) % 65535 := foldCarries_mod _
  have hczero : wsum pre + wsum post = 0 → S = 0 := by
    intro h0; rw [hS, h0]; rfl
  have hclt : c < 65536 := by omega
  have hw1 : wsum (pre ++ c % 256 :: c / 256 :: post) = wsum pre + wsum post + c := by
    rw [wsum_append pre heven]
    simp only [wsum]
    have : c % 256 + 256 * (c / 256) = c := Nat.mod_add_div c 256
    omega
  have hb1 : wsum pre + wsum post + c < 4294967296 := by omega
  have hsum1 : csum16_sum (pre ++ c % 256 :: c / 256 :: post) 0 =
      wsum pre + wsum post + c := by
    rw [csum16_sum_eq_wsum _ 0 (by omega : 0 + wsum (pre ++ c % 256 :: c / 256 :: post) < 4294967296)]
    · rw [hw1]; ring
  have htot_pos : 0 < wsum pre + wsum post + c := by
    rcases Nat.eq_zero_or_pos (wsum pre + wsum post) with h0 | h0
    · have := hczero h0; omega
    · omega
  have htot_mod : (wsum pre + wsum post + c) % 65535 = 0 := by omega
  have hfold : foldCarries (wsum pre + wsum post + c) = 65535 :=
    foldCarries_eq_ffff _ htot_pos htot_mod
  constructor
  · rw [hsum1]; exact hfold
  · unfold csum16; rw [hsum1, hfold]

/-- Characterization of the filter: a frame is reported as a match exactly
when all seven checks pass, and the reported MAC is the frame's Ethernet
source MAC. -/
theorem frame_match_eq_some_iff (buf : List Nat) (n id seq : Nat) (m : List Nat) :
    frame_match buf n id seq = some m ↔
      42 ≤ n ∧ ether_type buf = 2048 ∧ 20 ≤ ip_hl buf ∧ ip_proto buf = 1 ∧
      icmp_type buf = 0 ∧ icmp_code buf = 0 ∧ icmp_id buf = htons16 id ∧
      icmp_seq buf = htons16 seq ∧ m = ether_shost buf := by
  unfold frame_match
  split
  · simp_all
  · split
    · simp_all
    · split
      · simp_all
      · split
        · simp_all
        · split
          · rename_i hor
            simp_all
            intro ht hc
            tauto
          · split
            · simp_all
            · split
              · simp_all
              · simp_all
                exact eq_comm

theorem getD_double_set_ne (l : List Nat) (i1 i2 j x y d : Nat) (h1 : i1 ≠ j) (h2 : i2 ≠ j) :
    ((l.set i1 x).set i2 y).getD j d = l.getD j d := by
  simp [List.getD_eq_getElem?_getD, List.getElem?_set_ne h2, List.getElem?_set_ne h1]

/-- Overwriting the two ICMP checksum bytes of a captured frame changes
nothing the filter reads: every field inspected by `frame_match` lies at an
index distinct from the checksum field's two bytes. -/
theorem frame_match_set_cksum (buf : List Nat) (n id seq x y : Nat) :
    frame_match ((buf.set (icmp_off buf + 2) x).set (icmp_off buf + 3) y) n id seq =
    frame_match buf n id seq := by
  have hoff : icmp_off buf = 14 + buf.getD 14 0 % 16 * 4 := rfl
  set i1 := icmp_off buf + 2 with hi1
  set i2 := icmp_off buf + 3 with hi2
  have h14 : ((buf.set i1 x).set i2 y).getD 14 0 = buf.getD 14 0 :=
    getD_double_set_ne _ _ _ _ _ _ _ (by omega) (by omega)
  have hihl : ip_ihl ((buf.set i1 x).set i2 y) = ip_ihl buf := by
    unfold ip_ihl; rw [h14]
  have hhl : ip_hl ((buf.set i1 x).set i2 y) = ip_hl buf := by
    unfold ip_hl; rw [hihl]
  have hoff' : icmp_off ((buf.set i1 x).set i2 y) = icmp_off buf := by
    unfold icmp_off; rw [hhl]
  have heth : ether_type ((buf.set i1 x).set i2 y) = ether_type buf := by
    unfold ether_type
    rw [getD_double_set_ne _ _ _ _ _ _ _ (by omega) (by omega),
        getD_double_set_ne _ _ _ _ _ _ _ (by omega) (by omega)]
  have hproto : ip_proto ((buf.set i1 x).set i2 y) = ip_proto buf := by
    unfold ip_proto
    rw [getD_double_set_ne _ _ _ _ _ _ _ (by omega) (by omega)]
  have htype : icmp_type ((buf.set i1 x).set i2 y) = icmp_type buf := by
    unfold icmp_type
    rw [hoff', getD_double_set_ne _ _ _ _ _ _ _ (by omega) (by omega)]
  have hcode : icmp_code ((buf.set i1 x).set i2 y) = icmp_code buf := by
    unfold icmp_code
    rw [hoff', getD_double_set_ne _ _ _ _ _ _ _ (by omega) (by omega)]
  have hid : icmp_id ((buf.set i1 x).set i2 y) = icmp_id buf := by
    unfold icmp_id
    rw [hoff', getD_double_set_ne _ _ _ _ _ _ _ (by omega) (by omega),
        getD_double_set_ne _ _ _ _ _ _ _ (by omega) (by omega)]
  have hseq : icmp_seq ((buf.set i1 x).set i2 y) = icmp_seq buf := by
    unfold icmp_seq
    rw [hoff', getD_double_set_ne _ _ _ _ _ _ _ (by omega) (by omega),
        getD_double_set_ne _ _ _ _ _ _ _ (by omega) (by omega)]
  have hshost : ether_shost ((buf.set i1 x).set i2 y) = ether_shost buf := by
    unfold ether_shost
    rw [getD_double_set_ne _ _ _ _ _ _ _ (by omega) (by omega),
        getD_double_set_ne _ _ _ _ _ _ _ (by omega) (by omega),
        getD_double_set_ne _ _ _ _ _ _ _ (by omega) (by omega),
        getD_double_set_ne _ _ _ _ _ _ _ (by omega) (by omega),
        getD_double_set_ne _ _ _ _ _ _ _ (by omega) (by omega),
        getD_double_set_ne _ _ _ _ _ _ _ (by omega) (by omega)]
  unfold frame_match
  rw [heth, hhl, hproto, htype, hcode, hid, hseq, hshost]

/-- C1, counterexample: the claim that a frame is a candidate match only
when it contains the full variable-length IPv4 header and the ICMP header
at their computed offsets fails.  The buffer `c1buf` with received length
42 and `ihl = 6` is accepted as a full match — its ICMP id and sequence
fields are read from positions 42–45, beyond the received frame — even
though 42 < 14 + ip_hl + 8 = 46. -/
theorem c1_counterexample :
    frame_match c1buf 42 0 0 = some [1, 2, 3, 4, 5, 6] ∧ 42 < 14 + ip_hl c1buf + 8 := by
  constructor
  · decide
  · decide

/-- C1, amended: the filter only enforces the fixed minimum length of
Ethernet header + minimum-size (20-byte) IPv4 header + ICMP header = 42
bytes; every frame shorter than 42 bytes is discarded.  The variable IPv4
header length is not part of the bound. -/
theorem c1_min_length_only (buf : List Nat) (n id seq : Nat) (h : n < 42) :
    frame_match buf n id seq = none := by
  unfold frame_match
  rw [if_pos h]

theorem c1_min_length_only_witness : frame_match [] 41 0 0 = none :=
  c1_min_length_only [] 41 0 0 (by decide)

/-- C2: `csum16` coincides with the RFC 1071 reference computation as the
specification words it — sum the 16-bit words, fold carries, complement —
for every buffer and length, and it returns 0xFFFF on the empty buffer. -/
theorem c2_checksum_matches_spec :
    (∀ data : List Nat, csum16 data = checksum16_spec data) ∧ csum16 [] = 65535 :=
  ⟨csum16_eq_spec, rfl⟩

/-- C3, counterexample: recomputing the checksum over the builder's
finished 64-byte packet does not yield 0xFFFF, and the recomputed
accumulator does not fold to 0x0000: the classic identity holds with the
two values the other way around. -/
theorem c3_counterexample :
    ¬ (csum16 (build_icmp_echo 0 0 [0, 0, 0, 0, 0, 0, 0, 0]) = 65535 ∧
       foldCarries (csum16_sum (build_icmp_echo 0 0 [0, 0, 0, 0, 0, 0, 0, 0]) 0) = 0) := by
  decide

/-- C3, amended: for every buffer with a word-aligned zeroed checksum field,
storing the computed checksum in that field makes a recomputation's
accumulator fold to 0xFFFF before complementing, so the recomputed checksum
value is 0x0000; in particular `csum16` of the builder's finished 64-byte
packet is 0x0000. -/
theorem c3_verification_identity :
    (∀ pre post : List Nat, pre.length % 2 = 0 → pre.length + 2 + post.length ≤ 2048 →
      (∀ b ∈ pre, b < 256) → (∀ b ∈ post, b < 256) →
      foldCarries (csum16_sum (pre ++
          csum16 (pre ++ 0 :: 0 :: post) % 256 ::
          csum16 (pre ++ 0 :: 0 :: post) / 256 :: post) 0) = 65535 ∧
      csum16 (pre ++
          csum16 (pre ++ 0 :: 0 :: post) % 256 ::
          csum16 (pre ++ 0 :: 0 :: post) / 256 :: post) = 0) ∧
    (∀ (id seq : Nat) (now : List Nat), (∀ b ∈ now, b < 256) →
      csum16 (build_icmp_echo id seq now) = 0 ∧
      foldCarries (csum16_sum (build_icmp_echo id seq now) 0) = 65535) := by
  refine ⟨csum16_stuffed, ?_⟩
  intro id seq now hnow
  have h := csum16_stuffed [8, 0]
    (id / 256 % 256 :: id % 256 :: seq / 256 % 256 :: seq % 256 ::
      (now.take 8 ++ List.replicate (56 - (now.take 8).length) 0))
    (by decide)
    (by
      simp only [List.length_cons, List.length_append, List.length_replicate,
        List.length_nil, List.length_take]
      omega)
    (by decide)
    (by
      intro b hb
      simp only [List.mem_cons, List.mem_append] at hb
      rcases hb with rfl | rfl | rfl | rfl | hb | hb
      · omega
      · omega
      · omega
      · omega
      · exact hnow b (List.take_subset 8 now hb)
      · simp [List.eq_of_mem_replicate hb])
  exact ⟨h.2, h.1⟩

theorem c3_verification_identity_witness :
    csum16 (build_icmp_echo 0 0 [0, 0, 0, 0, 0, 0, 0, 0]) = 0 ∧
    foldCarries (csum16_sum (build_icmp_echo 0 0 [0, 0, 0, 0, 0, 0, 0, 0]) 0) = 65535 :=
  c3_verification_identity.2 0 0 [0, 0, 0, 0, 0, 0, 0, 0] (by decide)

/-- C4: for every 16-bit id and sequence value the builder produces exactly
64 bytes with ICMP type 8 (Echo Request), code 0, and the id and sequence
stored in network byte order (high byte first) at offsets 4–5 and 6–7. -/
theorem c4_build_fields (id seq : Nat) (now : List Nat)
    (hid : id < 65536) (hseq : seq < 65536) :
    (build_icmp_echo id seq now).length = 64 ∧
    (build_icmp_echo id seq now).getD 0 0 = 8 ∧
    (build_icmp_echo id seq now).getD 1 0 = 0 ∧
    (build_icmp_echo id seq now).getD 4 0 = id / 256 ∧
    (build_icmp_echo id seq now).getD 5 0 = id % 256 ∧
    (build_icmp_echo id seq now).getD 6 0 = seq / 256 ∧
    (build_icmp_echo id seq now).getD 7 0 = seq % 256 := by
  have htk : (now.take 8).length ≤ 8 := by
    simp only [List.length_take]
    omega
  refine ⟨?_, rfl, rfl, ?_, ?_, ?_, ?_⟩
  · unfold build_icmp_echo
    simp only [List.length_cons, List.length_append, List.length_replicate]
    omega
  · unfold build_icmp_echo
    simp only [List.getD_cons_succ, List.getD_cons_zero]
    omega
  · unfold build_icmp_echo
    simp only [List.getD_cons_succ, List.getD_cons_zero]
  · unfold build_icmp_echo
    simp only [List.getD_cons_succ, List.getD_cons_zero]
    omega
  · unfold build_icmp_echo
    simp only [List.getD_cons_succ, List.getD_cons_zero]

theorem c4_build_fields_witness :
    ((build_icmp_echo 65535 65535 [0, 0, 0, 0, 0, 0, 0, 0]).length = 64 ∧
     (build_icmp_echo 65535 65535 [0, 0, 0, 0, 0, 0, 0, 0]).getD 0 0 = 8 ∧
     (build_icmp_echo 65535 65535 [0, 0, 0, 0, 0, 0, 0, 0]).getD 1 0 = 0 ∧
     (build_icmp_echo 65535 65535 [0, 0, 0, 0, 0, 0, 0, 0]).getD 4 0 = 255 ∧
     (build_icmp_echo 65535 65535 [0, 0, 0, 0, 0, 0, 0, 0]).getD 5 0 = 255 ∧
     (build_icmp_echo 65535 65535 [0, 0, 0, 0, 0, 0, 0, 0]).getD 6 0 = 255 ∧
     (build_icmp_echo 65535 65535 [0, 0, 0, 0, 0, 0, 0, 0]).getD 7 0 = 255) ∧
    ((build_icmp_echo 0 0 [0, 0, 0, 0, 0, 0, 0, 0]).length = 64 ∧
     (build_icmp_echo 0 0 [0, 0, 0, 0, 0, 0, 0, 0]).getD 0 0 = 8 ∧
     (build_icmp_echo 0 0 [0, 0, 0, 0, 0, 0, 0, 0]).getD 1 0 = 0 ∧
     (build_icmp_echo 0 0 [0, 0, 0, 0, 0, 0, 0, 0]).getD 4 0 = 0 ∧
     (build_icmp_echo 0 0 [0, 0, 0, 0, 0, 0, 0, 0]).getD 5 0 = 0 ∧
     (build_icmp_echo 0 0 [0, 0, 0, 0, 0, 0, 0, 0]).getD 6 0 = 0 ∧
     (build_icmp_echo 0 0 [0, 0, 0, 0, 0, 0, 0, 0]).getD 7 0 = 0) :=
  ⟨c4_build_fields 65535 65535 [0, 0, 0, 0, 0, 0, 0, 0] (by decide) (by decide),
   c4_build_fields 0 0 [0, 0, 0, 0, 0, 0, 0, 0] (by decide) (by decide)⟩

/-- C5: a captured frame that fails any single one of the seven rejection
checks — too short; Ethernet type not IPv4; IPv4 header length less than
20; protocol not ICMP; ICMP type not Echo Reply or code not 0; id mismatch;
sequence mismatch — is never reported as a match. -/
theorem c5_any_failed_check_rejects (buf : List Nat) (n id seq : Nat)
    (h : n < 42 ∨ ether_type buf ≠ 2048 ∨ ip_hl buf < 20 ∨ ip_proto buf ≠ 1 ∨
         (icmp_type buf ≠ 0 ∨ icmp_code buf ≠ 0) ∨ icmp_id buf ≠ htons16 id ∨
         icmp_seq buf ≠ htons16 seq) :
    frame_match buf n id seq = none := by
  cases hfm : frame_match buf n id seq with
  | none => rfl
  | some m =>
    rw [frame_match_eq_some_iff] at hfm
    obtain ⟨h1, h2, h3, h4, h5, h6, h7, h8, h9⟩ := hfm
    rcases h with h | h | h | h | h | h | h
    · omega
    · exact absurd h2 h
    · omega
    · exact absurd h4 h
    · tauto
    · exact absurd h7 h
    · exact absurd h8 h

theorem c5_any_failed_check_rejects_witness : frame_match [] 0 0 0 = none :=
  c5_any_failed_check_rejects [] 0 0 0 (Or.inl (by decide))

/-- C6: every frame passing all the filter checks is reported as a match,
and the reported MAC is exactly the frame's 6-byte Ethernet source-MAC
field; in particular the synthetic reply frame with source MAC
aa:bb:cc:dd:ee:ff, id 1234 and sequence 1 yields that MAC, whose printed
form is the string aa:bb:cc:dd:ee:ff. -/
theorem c6_full_match_reports_source_mac :
    (∀ (buf : List Nat) (n id seq : Nat), 42 ≤ n → ether_type buf = 2048 →
      20 ≤ ip_hl buf → ip_proto buf = 1 → icmp_type buf = 0 → icmp_code buf = 0 →
      icmp_id buf = htons16 id → icmp_seq buf = htons16 seq →
      frame_match buf n id seq = some (ether_shost buf)) ∧
    frame_match exFrame 60 1234 1 = some [170, 187, 204, 221, 238, 255] ∧
    mac_string [170, 187, 204, 221, 238, 255] = "aa:bb:cc:dd:ee:ff" := by
  refine ⟨?_, by decide, by decide⟩
  intro buf n id seq h1 h2 h3 h4 h5 h6 h7 h8
  rw [frame_match_eq_some_iff]
  exact ⟨h1, h2, h3, h4, h5, h6, h7, h8, rfl⟩

theorem c6_full_match_reports_source_mac_witness :
    frame_match exFrame 60 1234 1 = some (ether_shost exFrame) :=
  c6_full_match_reports_source_mac.1 exFrame 60 1234 1 (by decide) (by decide)
    (by decide) (by decide) (by decide) (by decide) (by decide) (by decide)

/-- C7: the caller's 6-byte MAC buffer is written only on success — every
run of the wait loop that ends with the timeout/error result −1 returns the
buffer's prior contents unchanged. -/
theorem c7_mac_untouched_on_failure : ∀ (evs : List PollRes) (id seq : Nat) (mac0 : List Nat),
    (wait_reply evs id seq mac0).1 = -1 → (wait_reply evs id seq mac0).2 = mac0
  | [], _, _, _, _ => rfl
  | PollRes.timeout :: _, _, _, _, _ => rfl
  | PollRes.perr :: _, _, _, _, _ => rfl
  | PollRes.ready buf n :: rest, id, seq, mac0, h => by
      cases hfm : frame_match buf n id seq with
      | some mac =>
        simp only [wait_reply, hfm] at h
        exact absurd h (by decide)
      | none =>
        simp only [wait_reply, hfm] at h ⊢
        exact c7_mac_untouched_on_failure rest id seq mac0 h

theorem c7_mac_untouched_on_failure_witness :
    (wait_reply [PollRes.timeout] 5 7 [1, 2, 3, 4, 5, 6]).2 = [1, 2, 3, 4, 5, 6] :=
  c7_mac_untouched_on_failure [PollRes.timeout] 5 7 [1, 2, 3, 4, 5, 6] rfl

/-- C9: a poll error is handled exactly like a poll timeout — the loop
exits with the same result −1 and the same untouched caller buffer, with no
distinction surfaced to the caller. -/
theorem c9_poll_error_equals_timeout (evs : List PollRes) (id seq : Nat) (mac0 : List Nat) :
    wait_reply (PollRes.perr :: evs) id seq mac0 =
      wait_reply (PollRes.timeout :: evs) id seq mac0 ∧
    wait_reply (PollRes.perr :: evs) id seq mac0 = (-1, mac0) :=
  ⟨rfl, rfl⟩

/-- C10: the reply's own ICMP checksum field is never verified — rewriting
the two checksum bytes of any captured frame never changes the filter's
verdict, and a concrete frame whose ICMP checksum is incorrect for its
contents (its RFC 1071 verification sum is nonzero) is still reported as a
match with its source MAC. -/
theorem c10_checksum_never_verified :
    (∀ (buf : List Nat) (n id seq x y : Nat),
      frame_match ((buf.set (icmp_off buf + 2) x).set (icmp_off buf + 3) y) n id seq =
      frame_match buf n id seq) ∧
    frame_match ((exFrame.set 36 18).set 37 52) 60 1234 1 =
      some [170, 187, 204, 221, 238, 255] ∧
    csum16 (((exFrame.set 36 18).set 37 52).drop 34) ≠ 0 := by
  refine ⟨frame_match_set_cksum, by decide, by decide⟩

end Utility
